import Mathlib

/-!
Verification development for the STM32 FreeRTOS Wi-Fi LED controller firmware.

The definitions below are a shallow embedding of the firmware's core
(`esp8266_comm_task.c`, `print_task.c`, `watchdog.c`, `led_effects.c`):
pure Lean functions mirror the C functions, with FreeRTOS ticks modelled
as natural numbers (`configTICK_RATE_HZ = 1000`, so one tick is one
millisecond and `pdMS_TO_TICKS` is the identity), C strings modelled as
`List Char` (the characters before the NUL terminator), and the hardware
transmit primitive modelled as an oracle giving the success of each
attempt.  Theorems then settle the specified behavioural properties.
-/

namespace Stm32Wifi

/-! ## Configuration constants, from the firmware headers -/

/-- Command-line buffer capacity (`UART_RX_BUFFER_SIZE` in
`esp8266_comm_task.h`). -/
def UART_RX_BUFFER_SIZE : Nat := 64

/-- Stream-buffer capacity in bytes (`UART_STREAM_BUFFER_SIZE` in
`esp8266_comm_task.h`). -/
def UART_STREAM_BUFFER_SIZE : Nat := 128

/-- Maximum number of watchdog-monitored tasks (`WATCHDOG_MAX_TASKS` in
`watchdog.h`). -/
def WATCHDOG_MAX_TASKS : Nat := 3

/-- Sentinel id returned by a failed registration (`WATCHDOG_INVALID_ID`
in `watchdog.h`). -/
def WATCHDOG_INVALID_ID : Nat := 0xFF

/-- Watchdog check period in ms (`WATCHDOG_CHECK_PERIOD_MS` in
`watchdog.h`). -/
def WATCHDOG_CHECK_PERIOD_MS : Nat := 1000

/-- Maximum size of one print message (`PRINT_MESSAGE_MAX_SIZE` in
`print_task.h`). -/
def PRINT_MESSAGE_MAX_SIZE : Nat := 256

/-- Depth of the print queue (`PRINT_QUEUE_DEPTH` in `print_task.h`). -/
def PRINT_QUEUE_DEPTH : Nat := 5

/-- Timeout in ms for enqueuing a print message
(`PRINT_ENQUEUE_TIMEOUT_MS` in `print_task.h`). -/
def PRINT_ENQUEUE_TIMEOUT_MS : Nat := 100

/-- The STM32 HAL sentinel timeout value: `HAL_MAX_DELAY = 0xFFFFFFFFU`.
The HAL treats this value specially as an unbounded wait (the elapsed-time
check in `UART_WaitOnFlagUntilTimeout` is skipped for it). -/
def HAL_MAX_DELAY : Nat := 0xFFFFFFFF

/-- Heartbeat response timeout in ms (`STM32_PING_TIMEOUT_MS`). -/
def STM32_PING_TIMEOUT_MS : Nat := 1000

/-! ## Line assembler

Per-byte processing of `rx_buffer`/`rx_index` in
`esp8266_comm_task_handler` (`esp8266_comm_task.c` lines 362-387).
The buffer is modelled as the list of characters stored so far
(`rx_index` is its length). -/

/-- Observable output of one byte of line-assembler processing:
either a completed NUL-terminated line handed to `process_led_command`,
or the buffer-overflow error signal (`ERROR:BufferOverflow` transmitted
and the overflow diagnostic logged). -/
inductive RxEvent where
  | line (s : List Char) : RxEvent
  | overflow : RxEvent
deriving DecidableEq, Repr

/-- Processing of one received character (the body of the
`Data received - process the character` block of
`esp8266_comm_task_handler`): line terminators flush a non-empty buffer
as a line; a full buffer is discarded with an overflow signal; any other
character is appended. -/
def rx_step (buf : List Char) (c : Char) : List Char × List RxEvent :=
  if c = '\n' ∨ c = '\r' then
    if buf.length > 0 then ([], [RxEvent.line buf]) else (buf, [])
  else if buf.length ≥ UART_RX_BUFFER_SIZE - 1 then
    ([], [RxEvent.overflow])
  else
    (buf ++ [c], [])

/-- Feeding a sequence of bytes one at a time through `rx_step`,
collecting the emitted events in order. -/
def rx_run (buf : List Char) : List Char → List Char × List RxEvent
  | [] => (buf, [])
  | c :: cs =>
    let s := rx_step buf c
    let r := rx_run s.1 cs
    (r.1, s.2 ++ r.2)

/-- Character class test for the two recognized line terminators. -/
def isTerm (c : Char) : Bool := c = '\n' || c = '\r'

/-- Splitting of an input byte sequence on `\n`/`\r`: the list of
completed segments (each was followed by a terminator) together with the
trailing segment not yet closed by a terminator. -/
def splitOnTerm : List Char → List (List Char) × List Char
  | [] => ([], [])
  | c :: cs =>
    let r := splitOnTerm cs
    if isTerm c then ([] :: r.1, r.2)
    else
      match r.1 with
      | [] => ([], c :: r.2)
      | s :: rest => ((c :: s) :: rest, r.2)

/-- Events the assembler produces for one completed terminator-free
segment, starting from an empty buffer: one overflow signal for every 64
characters (the 64th, 128th, ... character each finds the buffer holding
63 characters and is discarded), followed by a line made of the tail
characters after the last overflow, when that tail is non-empty. -/
def segEvents (seg : List Char) : List RxEvent :=
  List.replicate (seg.length / UART_RX_BUFFER_SIZE) RxEvent.overflow ++
    (if seg.length % UART_RX_BUFFER_SIZE = 0 then []
     else [RxEvent.line (seg.drop (UART_RX_BUFFER_SIZE * (seg.length / UART_RX_BUFFER_SIZE)))])

theorem rx_run_cons (buf : List Char) (c : Char) (cs : List Char) :
    rx_run buf (c :: cs) =
      ((rx_run (rx_step buf c).1 cs).1,
        (rx_step buf c).2 ++ (rx_run (rx_step buf c).1 cs).2) := rfl

theorem rx_run_append (buf : List Char) (xs ys : List Char) :
    rx_run buf (xs ++ ys) =
      ((rx_run (rx_run buf xs).1 ys).1,
        (rx_run buf xs).2 ++ (rx_run (rx_run buf xs).1 ys).2) := by
  induction xs generalizing buf with
  | nil => simp [rx_run]
  | cons c cs ih =>
    simp only [List.cons_append, rx_run_cons, ih, List.append_assoc]

theorem isTerm_false_iff (c : Char) : isTerm c = false ↔ ¬(c = '\n' ∨ c = '\r') := by
  simp [isTerm, not_or]

theorem isTerm_true_iff (c : Char) : isTerm c = true ↔ (c = '\n' ∨ c = '\r') := by
  simp [isTerm]

theorem rx_run_fill (seg : List Char) : ∀ (buf : List Char),
    buf.length + seg.length ≤ 63 → (∀ c ∈ seg, isTerm c = false) →
    rx_run buf seg = (buf ++ seg, []) := by
  induction seg with
  | nil => intro buf _ _; simp [rx_run]
  | cons c cs ih =>
    intro buf hlen hterm
    simp only [List.length_cons] at hlen
    have hc : ¬(c = '\n' ∨ c = '\r') :=
      (isTerm_false_iff c).mp (hterm c (List.mem_cons_self c cs))
    have hlt : ¬(buf.length ≥ UART_RX_BUFFER_SIZE - 1) := by
      simp only [UART_RX_BUFFER_SIZE]; omega
    have hstep : rx_step buf c = (buf ++ [c], []) := by
      simp only [rx_step]
      rw [if_neg hc, if_neg hlt]
    have htail : rx_run (buf ++ [c]) cs = (buf ++ [c] ++ cs, []) := by
      apply ih
      · simp only [List.length_append, List.length_singleton]
        omega
      · intro x hx; exact hterm x (List.mem_cons_of_mem c hx)
    rw [rx_run_cons, hstep, htail]
    simp

theorem rx_run_seg_aux : ∀ (n : Nat) (seg : List Char), seg.length ≤ n →
    (∀ c ∈ seg, isTerm c = false) →
    rx_run [] seg =
      (seg.drop (64 * (seg.length / 64)), List.replicate (seg.length / 64) RxEvent.overflow) := by
  intro n
  induction n with
  | zero =>
    intro seg hlen _
    have : seg = [] := List.length_eq_zero.mp (Nat.le_zero.mp hlen)
    subst this; simp [rx_run]
  | succ n ih =>
    intro seg hlen hterm
    by_cases hshort : seg.length ≤ 63
    · have h0 : seg.length / 64 = 0 := Nat.div_eq_of_lt (by omega)
      rw [rx_run_fill seg [] (by simpa using hshort) hterm, h0]
      simp
    · push_neg at hshort
      have h64 : 64 ≤ seg.length := hshort
      have h63 : 63 < seg.length := by omega
      -- decompose seg = take 63 ++ seg[63] :: drop 64
      have hdec : seg = seg.take 63 ++ (seg[63] :: seg.drop 64) := by
        conv_lhs => rw [← List.take_append_drop 63 seg]
        rw [List.drop_eq_getElem_cons h63]
      have hlt63 : (seg.take 63).length = 63 := by
        simp [List.length_take]; omega
      have hfill : rx_run [] (seg.take 63) = (seg.take 63, []) := by
        apply rx_run_fill
        · simp [hlt63]
        · intro x hx; exact hterm x (List.take_subset 63 seg hx)
      have hstep : rx_step (seg.take 63) seg[63] = ([], [RxEvent.overflow]) := by
        have hc : ¬(seg[63] = '\n' ∨ seg[63] = '\r') :=
          (isTerm_false_iff _).mp (hterm _ (seg.getElem_mem h63))
        have hge : (seg.take 63).length ≥ UART_RX_BUFFER_SIZE - 1 := by
          simp only [UART_RX_BUFFER_SIZE, hlt63]
          omega
        simp only [rx_step]
        rw [if_neg hc, if_pos hge]
      have hrest : rx_run [] (seg.drop 64) =
          ((seg.drop 64).drop (64 * ((seg.drop 64).length / 64)),
            List.replicate ((seg.drop 64).length / 64) RxEvent.overflow) := by
        apply ih
        · simp only [List.length_drop]; omega
        · intro x hx; exact hterm x (List.drop_subset 64 seg hx)
      have hlend : (seg.drop 64).length = seg.length - 64 := List.length_drop 64 seg
      have hdiv : seg.length / 64 = (seg.length - 64) / 64 + 1 :=
        Nat.div_eq_sub_div (by norm_num) h64
      calc rx_run [] seg
          = rx_run [] (seg.take 63 ++ (seg[63] :: seg.drop 64)) := by rw [← hdec]
        _ = (seg.drop (64 * (seg.length / 64)),
              List.replicate (seg.length / 64) RxEvent.overflow) := by
            rw [rx_run_append, hfill]
            simp only [rx_run_cons, hstep, hrest]
            rw [Prod.mk.injEq]
            refine ⟨?_, ?_⟩
            · rw [List.drop_drop, hlend, hdiv]
              congr 1
              ring
            · rw [hlend, hdiv, List.replicate_succ]
              simp

theorem rx_run_seg (seg : List Char) (hterm : ∀ c ∈ seg, isTerm c = false) :
    rx_run [] seg =
      (seg.drop (64 * (seg.length / 64)), List.replicate (seg.length / 64) RxEvent.overflow) :=
  rx_run_seg_aux seg.length seg le_rfl hterm

theorem splitOnTerm_no_term (l : List Char) (h : ∀ c ∈ l, isTerm c = false) :
    splitOnTerm l = ([], l) := by
  induction l with
  | nil => rfl
  | cons c cs ih =>
    have hc : isTerm c = false := h c (List.mem_cons_self c cs)
    have hcs := ih (fun x hx => h x (List.mem_cons_of_mem c hx))
    simp [splitOnTerm, hc, hcs]

theorem splitOnTerm_append (s : List Char) (t : Char) (rest : List Char)
    (hs : ∀ c ∈ s, isTerm c = false) (ht : isTerm t = true) :
    splitOnTerm (s ++ t :: rest) =
      (s :: (splitOnTerm rest).1, (splitOnTerm rest).2) := by
  induction s with
  | nil => simp [splitOnTerm, ht]
  | cons c cs ih =>
    have hc : isTerm c = false := hs c (List.mem_cons_self c cs)
    have hcs := ih (fun x hx => hs x (List.mem_cons_of_mem c hx))
    simp [splitOnTerm, hc, hcs]

theorem dropWhile_head_false {p : Char → Bool} :
    ∀ {l : List Char} {x : Char} {xs : List Char}, l.dropWhile p = x :: xs → p x = false := by
  intro l
  induction l with
  | nil => intro x xs h; simp [List.dropWhile] at h
  | cons c cs ih =>
    intro x xs h
    by_cases hc : p c
    · rw [List.dropWhile_cons_of_pos hc] at h
      exact ih h
    · rw [List.dropWhile_cons_of_neg hc] at h
      cases h
      simpa using hc

theorem rx_run_char_aux : ∀ (n : Nat) (bs : List Char), bs.length ≤ n →
    (rx_run [] bs).2 =
      ((splitOnTerm bs).1.map segEvents).flatten ++
        List.replicate ((splitOnTerm bs).2.length / 64) RxEvent.overflow := by
  intro n
  induction n with
  | zero =>
    intro bs hlen
    have : bs = [] := List.length_eq_zero.mp (Nat.le_zero.mp hlen)
    subst this; simp [rx_run, splitOnTerm]
  | succ n ih =>
    intro bs hlen
    have hsplit : bs.takeWhile (fun c => !isTerm c) ++ bs.dropWhile (fun c => !isTerm c) = bs :=
      List.takeWhile_append_dropWhile _ _
    set s := bs.takeWhile (fun c => !isTerm c) with hs_def
    have hs : ∀ c ∈ s, isTerm c = false := by
      intro c hc
      have := List.mem_takeWhile_imp hc
      simpa using this
    cases hrest : bs.dropWhile (fun c => !isTerm c) with
    | nil =>
      have hbs : bs = s := by rw [← hsplit, hrest, List.append_nil]
      rw [hbs, rx_run_seg s hs, splitOnTerm_no_term s hs]
      simp [segEvents]
    | cons t rest =>
      have ht : isTerm t = true := by
        have := dropWhile_head_false hrest
        simpa using this
      have hbs : bs = s ++ t :: rest := by rw [← hsplit, hrest]
      have hlenrest : rest.length ≤ n := by
        have : bs.length = s.length + (rest.length + 1) := by
          rw [hbs]; simp
        omega
      have hsbuf_len : (s.drop (64 * (s.length / 64))).length = s.length % 64 := by
        rw [List.length_drop]
        have := Nat.mod_add_div s.length 64
        omega
      have ht' : t = '\n' ∨ t = '\r' := (isTerm_true_iff t).mp ht
      have hstep : rx_step (s.drop (64 * (s.length / 64))) t =
          ([], if s.length % 64 = 0 then []
               else [RxEvent.line (s.drop (64 * (s.length / 64)))]) := by
        by_cases hmod : s.length % 64 = 0
        · have hnil : s.drop (64 * (s.length / 64)) = [] :=
            List.length_eq_zero.mp (by rw [hsbuf_len, hmod])
          rw [hnil]
          simp only [rx_step]
          rw [if_pos ht']
          simp [hmod]
        · have hpos : 0 < (s.drop (64 * (s.length / 64))).length := by
            rw [hsbuf_len]; omega
          simp only [rx_step]
          rw [if_pos ht', if_pos hpos, if_neg hmod]
      rw [hbs, rx_run_append, rx_run_seg s hs]
      simp only [rx_run_cons, hstep]
      rw [ih rest hlenrest, splitOnTerm_append s t rest hs ht]
      simp only [List.map_cons, List.flatten_cons, segEvents, UART_RX_BUFFER_SIZE]
      simp [List.append_assoc]

example : (rx_run [] ("ab\ncd\r\r\n".toList)).2 =
    [RxEvent.line ['a', 'b'], RxEvent.line ['c', 'd']] := by decide

example : (rx_run [] (List.replicate 64 'a' ++ ['b', '\n'])).2 =
    [RxEvent.overflow, RxEvent.line ['b']] := by decide

example : segEvents (List.replicate 64 'a' ++ ['b']) =
    [RxEvent.overflow, RxEvent.line ['b']] := by decide

example : splitOnTerm "ab\ncd\r\r\nef".toList =
    ([['a', 'b'], ['c', 'd'], [], []], ['e', 'f']) := by decide

/-- C1 (counterexample): the claim states that a segment reaching the
capacity bound produces an `Overflow` signal *instead of* a line, with no
line yielded for that segment.  On the code this fails: feeding 64 `a`s,
one `b` and a newline — a single 65-character segment, which reaches the
bound — yields the overflow signal *and* then a line consisting of the
single character `b` (the tail that re-accumulated after the buffer was
discarded and the cursor reset). -/
theorem C1_long_segment_also_yields_tail_line :
    (rx_run [] (List.replicate UART_RX_BUFFER_SIZE 'a' ++ ['b', '\n'])).2 =
      [RxEvent.overflow, RxEvent.line ['b']] := by decide

/-- C1 (amended): full characterization of the line assembler.  For every
byte sequence, the emitted events are, segment by segment of the input
split on `\n`/`\r` (via `segEvents`): nothing for an empty segment; the
segment itself as a line, exactly once, for a non-empty segment shorter
than the 64-byte capacity bound; and, for a segment reaching the bound,
one `Overflow` signal per 64 bytes followed by a line holding the leftover
tail bytes whenever that tail is non-empty (the code does **not** suppress
the line for an overflowing segment).  A trailing segment not yet closed
by a terminator contributes only its overflow signals so far. -/
theorem C1_line_assembler_characterization (bs : List Char) :
    (rx_run [] bs).2 =
      ((splitOnTerm bs).1.map segEvents).flatten ++
        List.replicate ((splitOnTerm bs).2.length / UART_RX_BUFFER_SIZE) RxEvent.overflow :=
  rx_run_char_aux bs.length bs le_rfl

/-! ## LED patterns, heartbeat state and the command dispatcher

From `led_effects.h`/`led_effects.c` (pattern enumeration) and
`esp8266_comm_task.c` (`process_led_command`, lines 91-187, and the
connection-monitoring statics `waiting_for_pong`, `uart_connection_ok`,
`last_ping_sent`, `last_pong_received`). -/

/-- LED pattern selector (`LED_Pattern_t` of `led_effects.h`). -/
inductive LED_Pattern_t where
  | LED_PATTERN_NONE : LED_Pattern_t
  | LED_PATTERN_1 : LED_Pattern_t
  | LED_PATTERN_2 : LED_Pattern_t
  | LED_PATTERN_3 : LED_Pattern_t
deriving DecidableEq, Repr

/-- Connection-monitoring state of the communication task: the file-scope
statics `waiting_for_pong`, `uart_connection_ok`, `last_ping_sent` and
`last_pong_received` of `esp8266_comm_task.c`.  Initial values:
`pdFALSE`, `pdTRUE`, `0`, `0`. -/
structure HeartbeatState where
  waiting_for_pong : Bool
  uart_connection_ok : Bool
  last_ping_sent : Nat
  last_pong_received : Nat
deriving DecidableEq, Repr

/-- Observable outcome of `process_led_command` on one line: the reply
frame selected for transmission on UART2 (handed to the bounded-retry
loop), the LED pattern action invoked, the updated connection-monitoring
state, and whether the `UART connection restored` recovery line was
logged. -/
structure DispatchOut where
  reply : Option (List Char)
  pattern : Option LED_Pattern_t
  hb : HeartbeatState
  restoredLog : Bool
deriving DecidableEq, Repr

/-- The NUL character terminating C strings (read by `line[8]` when the
line ends at the `LED_CMD:` prefix). -/
def NUL : Char := Char.ofNat 0

/-- Shallow embedding of `process_led_command` (`esp8266_comm_task.c`
lines 91-187).  Prefix tests mirror the `strncmp(line, "PING", 4)`,
`strncmp(line, "STM32_PONG", 10)` and `strncmp(line, "LED_CMD:", 8)`
calls (a `strncmp` of a NUL-terminated line against an n-character
prefix returns 0 exactly when the first n characters match); the token
is `line[8]`, the character after the prefix (the NUL terminator when
the line is exactly `LED_CMD:`). -/
def process_led_command (line : List Char) (hb : HeartbeatState) (now : Nat) : DispatchOut :=
  if line.take 4 = "PING".toList then
    { reply := some "PONG\r\n".toList, pattern := none, hb := hb, restoredLog := false }
  else if line.take 10 = "STM32_PONG".toList then
    { reply := none, pattern := none,
      hb := { waiting_for_pong := false, uart_connection_ok := true,
              last_ping_sent := hb.last_ping_sent, last_pong_received := now },
      restoredLog := !hb.uart_connection_ok }
  else if line.take 8 = "LED_CMD:".toList then
    let cmd := line.getD 8 NUL
    if cmd = '1' then
      { reply := some "OK:Pattern1\r\n".toList, pattern := some LED_Pattern_t.LED_PATTERN_1,
        hb := hb, restoredLog := false }
    else if cmd = '2' then
      { reply := some "OK:Pattern2\r\n".toList, pattern := some LED_Pattern_t.LED_PATTERN_2,
        hb := hb, restoredLog := false }
    else if cmd = '3' then
      { reply := some "OK:Pattern3\r\n".toList, pattern := some LED_Pattern_t.LED_PATTERN_3,
        hb := hb, restoredLog := false }
    else if cmd = '4' then
      { reply := some "OK:AllOFF\r\n".toList, pattern := some LED_Pattern_t.LED_PATTERN_NONE,
        hb := hb, restoredLog := false }
    else
      { reply := some "ERROR:InvalidPattern\r\n".toList, pattern := none,
        hb := hb, restoredLog := false }
  else
    { reply := none, pattern := none, hb := hb, restoredLog := false }

/-- Modelled from the spec's dispatch table (§4.3/§8): the exactly
specified reply for token `c`, as the on-wire frame (reply text plus the
CRLF line terminator). -/
def specLedReplyFrame (c : Char) : List Char :=
  if c = '1' then "OK:Pattern1\r\n".toList
  else if c = '2' then "OK:Pattern2\r\n".toList
  else if c = '3' then "OK:Pattern3\r\n".toList
  else if c = '4' then "OK:AllOFF\r\n".toList
  else "ERROR:InvalidPattern\r\n".toList

/-- Modelled from the spec's dispatch table (§4.3/§8): the actuator
action invoked for token `c` — one of the four patterns for the
canonical tokens, and no pattern change for an unknown token. -/
def specLedAction (c : Char) : Option LED_Pattern_t :=
  if c = '1' then some LED_Pattern_t.LED_PATTERN_1
  else if c = '2' then some LED_Pattern_t.LED_PATTERN_2
  else if c = '3' then some LED_Pattern_t.LED_PATTERN_3
  else if c = '4' then some LED_Pattern_t.LED_PATTERN_NONE
  else none

example : (process_led_command "LED_CMD:2".toList ⟨false, true, 0, 0⟩ 5).reply =
    some "OK:Pattern2\r\n".toList := by decide

example : (process_led_command "LED_CMD:x".toList ⟨false, true, 0, 0⟩ 5).pattern = none := by
  decide

/-- C2: each `LED_CMD:` line is answered with exactly the specified reply
frame — token `1` with `OK:Pattern1`, `2` with `OK:Pattern2`, `3` with
`OK:Pattern3`, `4` with `OK:AllOFF`, any other token character after the
prefix with `ERROR:InvalidPattern` — and the LED pattern action applied is
the one keyed by the token, with no pattern change for an unknown token
(and the connection state untouched either way). -/
theorem C2_led_command_replies (c : Char) (rest : List Char) (hb : HeartbeatState) (now : Nat) :
    (process_led_command ("LED_CMD:".toList ++ c :: rest) hb now).reply =
        some (specLedReplyFrame c) ∧
      (process_led_command ("LED_CMD:".toList ++ c :: rest) hb now).pattern = specLedAction c ∧
      (process_led_command ("LED_CMD:".toList ++ c :: rest) hb now).hb = hb := by
  have h4 : ("LED_CMD:".toList ++ c :: rest).take 4 ≠ "PING".toList := by
    rw [List.take_append_of_le_length (by decide)]
    decide
  have h10 : ("LED_CMD:".toList ++ c :: rest).take 10 ≠ "STM32_PONG".toList := by
    simp [List.take_append_eq_append_take]
  have h8 : ("LED_CMD:".toList ++ c :: rest).take 8 = "LED_CMD:".toList := by
    rw [List.take_append_of_le_length (by decide)]
    decide
  have hc : ("LED_CMD:".toList ++ c :: rest).getD 8 NUL = c := by
    simp [List.getD_append_right]
  simp only [process_led_command, if_neg h4, if_neg h10, if_pos h8, hc,
    specLedReplyFrame, specLedAction]
  by_cases h1 : c = '1' <;> by_cases h2 : c = '2' <;> by_cases h3 : c = '3' <;>
    by_cases hx : c = '4' <;> simp [h1, h2, h3, hx]

/-- C7 (counterexample): the claim states that a received line with
prefix `PONG` clears `awaiting_response` and marks the link healthy.  On
the code a bare `PONG` line matches none of the recognized prefixes
(`PING`, `STM32_PONG`, `LED_CMD:`) and falls through: here, starting from
a state that is awaiting a response with the link marked unhealthy, the
dispatcher leaves the state entirely unchanged and sends no reply. -/
theorem C7_bare_pong_line_ignored :
    process_led_command "PONG".toList ⟨true, false, 0, 0⟩ 100 =
      { reply := none, pattern := none, hb := ⟨true, false, 0, 0⟩, restoredLog := false } := by
  decide

/-- C7 (amended): the reply to this node's own probe is the
`STM32_PONG`-prefixed frame, and on any line carrying that prefix the
dispatcher clears `waiting_for_pong`, marks the connection healthy,
applies no pattern action and sends no reply frame; a bare `PONG` line is
not recognized and is ignored (log only). -/
theorem C7_stm32_pong_clears_waiting (rest : List Char) (hb : HeartbeatState) (now : Nat) :
    (process_led_command ("STM32_PONG".toList ++ rest) hb now).reply = none ∧
      (process_led_command ("STM32_PONG".toList ++ rest) hb now).hb.waiting_for_pong = false ∧
      (process_led_command ("STM32_PONG".toList ++ rest) hb now).hb.uart_connection_ok = true ∧
      (process_led_command ("STM32_PONG".toList ++ rest) hb now).pattern = none := by
  have h4 : ("STM32_PONG".toList ++ rest).take 4 ≠ "PING".toList := by
    rw [List.take_append_of_le_length (by decide)]
    decide
  have h10 : ("STM32_PONG".toList ++ rest).take 10 = "STM32_PONG".toList := by
    rw [List.take_append_of_le_length (by decide)]
    decide
  simp [process_led_command, if_neg h4, if_pos h10]

/-! ## Reliable transmitter

The bounded-retry transmit loop appearing three times in
`esp8266_comm_task.c` (PONG reply, lines 101-113; LED acknowledgment,
lines 169-179; STM32_PING, lines 299-315):

    for (int retry = 0; retry < 3; retry++) {
        status = HAL_UART_Transmit(...);
        if (status == HAL_OK) break;
        vTaskDelay(pdMS_TO_TICKS(10));
    }

The hardware is modelled by an oracle `tx : Nat → Bool` giving the
success of the i-th attempt. -/

/-- The retry loop from attempt index `i` with the given number of loop
iterations remaining, returning the number of attempts made, whether the
final status was `HAL_OK`, and the number of 10 ms `vTaskDelay`
suspensions taken (one after each failed attempt). -/
def uart_send_from (tx : Nat → Bool) (i : Nat) : Nat → Nat × Bool × Nat
  | 0 => (0, false, 0)
  | fuel + 1 =>
    if tx i then (1, true, 0)
    else
      let r := uart_send_from tx (i + 1) fuel
      (r.1 + 1, r.2.1, r.2.2 + 1)

/-- The full bounded-retry send: up to 3 attempts starting at index 0. -/
def uart_send_retry (tx : Nat → Bool) : Nat × Bool × Nat := uart_send_from tx 0 3

/-- The PONG-reply path around the retry loop (lines 101-113): whether the
frame was delivered, and the log line posted afterwards (success log on
`HAL_OK`, failure log otherwise). -/
def pong_reply_action (tx : Nat → Bool) : Bool × List Char :=
  ((uart_send_retry tx).2.1,
    if (uart_send_retry tx).2.1 then "[ESP8266] ← PING received, sent PONG\r\n".toList
    else "[ESP8266] ERROR: Failed to send PONG\r\n".toList)

example : uart_send_retry (fun _ => false) = (3, false, 3) := by decide

example : uart_send_retry (fun i => i = 1) = (2, true, 1) := by decide

/-- C3: the bounded-retry transmitter makes at most 3 attempts; it
succeeds exactly when one of the first 3 attempts succeeds, every attempt
before the last one made failed (the loop stops at the first success),
and on success the last attempt made is the successful one; a fixed 10 ms
delay follows each failed attempt — so the number of delays is the number
of failed attempts, never an exponential backoff; and when all 3 attempts
fail the result is exactly 3 attempts, 3 delays, a `Failed` outcome with
the failure log line posted and no frame delivered. -/
theorem C3_reliable_transmit_bounded_retry (tx : Nat → Bool) :
    (uart_send_retry tx).1 ≤ 3 ∧
      ((uart_send_retry tx).2.1 = true ↔ ∃ i, i < 3 ∧ tx i = true) ∧
      (∀ i, i + 1 < (uart_send_retry tx).1 → tx i = false) ∧
      ((uart_send_retry tx).2.1 = true → tx ((uart_send_retry tx).1 - 1) = true) ∧
      ((uart_send_retry tx).2.2 =
        if (uart_send_retry tx).2.1 then (uart_send_retry tx).1 - 1
        else (uart_send_retry tx).1) ∧
      ((∀ i, i < 3 → tx i = false) →
        uart_send_retry tx = (3, false, 3) ∧
          pong_reply_action tx =
            (false, "[ESP8266] ERROR: Failed to send PONG\r\n".toList)) := by
  refine ⟨?_, ?_, ?_, ?_, ?_, ?_⟩
  · by_cases h0 : tx 0 <;> by_cases h1 : tx 1 <;> by_cases h2 : tx 2 <;>
      simp [uart_send_retry, uart_send_from, h0, h1, h2]
  · constructor
    · intro hs
      by_cases h0 : tx 0
      · exact ⟨0, by norm_num, h0⟩
      · by_cases h1 : tx 1
        · exact ⟨1, by norm_num, h1⟩
        · by_cases h2 : tx 2
          · exact ⟨2, by norm_num, h2⟩
          · simp [uart_send_retry, uart_send_from, h0, h1, h2] at hs
    · rintro ⟨i, hi, ht⟩
      interval_cases i <;>
        by_cases h0 : tx 0 <;> by_cases h1 : tx 1 <;> by_cases h2 : tx 2 <;>
          simp_all [uart_send_retry, uart_send_from]
  · intro i hi
    by_cases h0 : tx 0
    · simp [uart_send_retry, uart_send_from, h0] at hi
    · by_cases h1 : tx 1
      · simp [uart_send_retry, uart_send_from, h0, h1] at hi
        have : i = 0 := by omega
        subst this; simpa using h0
      · by_cases h2 : tx 2 <;>
          · simp [uart_send_retry, uart_send_from, h0, h1, h2] at hi
            have hcases : i = 0 ∨ i = 1 := by omega
            rcases hcases with h | h <;> subst h
            · simpa using h0
            · simpa using h1
  · intro hs
    by_cases h0 : tx 0 <;> by_cases h1 : tx 1 <;> by_cases h2 : tx 2 <;>
      simp_all [uart_send_retry, uart_send_from]
  · by_cases h0 : tx 0 <;> by_cases h1 : tx 1 <;> by_cases h2 : tx 2 <;>
      simp [uart_send_retry, uart_send_from, h0, h1, h2]
  · intro h
    have h0 := h 0 (by norm_num)
    have h1 := h 1 (by norm_num)
    have h2 := h 2 (by norm_num)
    constructor
    · simp [uart_send_retry, uart_send_from, h0, h1, h2]
    · simp [pong_reply_action, uart_send_retry, uart_send_from, h0, h1, h2]

/-- C3 witness: with a hardware oracle failing every attempt, the
transmitter reports failure after exactly 3 attempts and 3 delays and
posts the failure log line with no frame delivered. -/
theorem C3_reliable_transmit_bounded_retry_witness :
    uart_send_retry (fun _ => false) = (3, false, 3) ∧
      pong_reply_action (fun _ => false) =
        (false, "[ESP8266] ERROR: Failed to send PONG\r\n".toList) :=
  (C3_reliable_transmit_bounded_retry (fun _ => false)).2.2.2.2.2 (fun _ _ => rfl)

/-! ## Heartbeat monitor

The connection-monitoring logic inside `esp8266_comm_task_handler`
(ping-timeout check, lines 318-328; successful ping transmit bookkeeping,
lines 307-312) together with the `STM32_PONG` branch of
`process_led_command` (lines 116-128). -/

/-- Logged link-health transitions: the `ALERT: No STM32_PONG response`
down transition and the `UART connection restored` recovery. -/
inductive HBLog where
  | down : HBLog
  | recovery : HBLog
deriving DecidableEq, Repr

/-- Events affecting the connection-monitoring state, each carrying the
current tick count `now`. -/
inductive HBEvent where
  | pingSent (now : Nat) : HBEvent
  | timeoutCheck (now : Nat) : HBEvent
  | pongLine (now : Nat) : HBEvent
deriving DecidableEq, Repr

/-- The ping-timeout check (`esp8266_comm_task.c` lines 318-328): when
awaiting a response past the 1 s timeout, the connection flag is dropped
with one logged down transition only if it was still up, and
`waiting_for_pong` is cleared regardless. -/
def hb_check_timeout (hb : HeartbeatState) (now : Nat) : HeartbeatState × List HBLog :=
  if hb.waiting_for_pong = true ∧ now - hb.last_ping_sent ≥ STM32_PING_TIMEOUT_MS then
    let hb1 := if hb.uart_connection_ok then { hb with uart_connection_ok := false } else hb
    ({ hb1 with waiting_for_pong := false },
      if hb.uart_connection_ok then [HBLog.down] else [])
  else (hb, [])

/-- One connection-monitoring step: a successful `STM32_PING` transmit
(sets `waiting_for_pong` and `last_ping_sent`), the timeout check, or the
dispatch of a received `STM32_PONG` line (which logs the recovery exactly
when `uart_connection_ok` was down, via `process_led_command`). -/
def hb_step (hb : HeartbeatState) (e : HBEvent) : HeartbeatState × List HBLog :=
  match e with
  | HBEvent.pingSent now => ({ hb with waiting_for_pong := true, last_ping_sent := now }, [])
  | HBEvent.timeoutCheck now => hb_check_timeout hb now
  | HBEvent.pongLine now =>
    let out := process_led_command "STM32_PONG".toList hb now
    (out.hb, if out.restoredLog then [HBLog.recovery] else [])

/-- Running a sequence of connection-monitoring events, collecting the
logged health transitions in order. -/
def hb_run (hb : HeartbeatState) : List HBEvent → HeartbeatState × List HBLog
  | [] => (hb, [])
  | e :: es =>
    let s := hb_step hb e
    let r := hb_run s.1 es
    (r.1, s.2 ++ r.2)

/-- Initial connection-monitoring state (`waiting_for_pong = pdFALSE`,
`uart_connection_ok = pdTRUE`). -/
def hb_init : HeartbeatState := ⟨false, true, 0, 0⟩

/-- Strict alternation of health-transition logs: starting from a healthy
link the first transition logged must be `down`, then `recovery`, then
`down` again, and so on — no transition is ever logged twice in a row. -/
def healthLogsAlternate : Bool → List HBLog → Bool
  | _, [] => true
  | true, HBLog.down :: rest => healthLogsAlternate false rest
  | false, HBLog.recovery :: rest => healthLogsAlternate true rest
  | _, _ :: _ => false

theorem hb_step_pong (hb : HeartbeatState) (now : Nat) :
    hb_step hb (HBEvent.pongLine now) =
      (⟨false, true, hb.last_ping_sent, now⟩,
        if hb.uart_connection_ok then [] else [HBLog.recovery]) := by
  have h4 : ("STM32_PONG".toList).take 4 ≠ "PING".toList := by decide
  have h10 : ("STM32_PONG".toList).take 10 = "STM32_PONG".toList := by decide
  cases hok : hb.uart_connection_ok <;>
    simp [hb_step, process_led_command, if_neg h4, if_pos h10, hok]

theorem hb_run_alternation (events : List HBEvent) :
    ∀ (hb : HeartbeatState),
      healthLogsAlternate hb.uart_connection_ok (hb_run hb events).2 = true := by
  induction events with
  | nil => intro hb; simp [hb_run, healthLogsAlternate]
  | cons e es ih =>
    intro hb
    simp only [hb_run]
    cases e with
    | pingSent now =>
      simpa [hb_step] using ih { hb with waiting_for_pong := true, last_ping_sent := now }
    | timeoutCheck now =>
      simp only [hb_step, hb_check_timeout]
      by_cases hcond : hb.waiting_for_pong = true ∧ now - hb.last_ping_sent ≥ STM32_PING_TIMEOUT_MS
      · rw [if_pos hcond]
        cases hok : hb.uart_connection_ok
        · simpa [hok, healthLogsAlternate] using
            ih { hb with waiting_for_pong := false }
        · have := ih { hb with uart_connection_ok := false, waiting_for_pong := false }
          simpa [hok, healthLogsAlternate] using this
      · rw [if_neg hcond]
        simpa using ih hb
    | pongLine now =>
      rw [hb_step_pong]
      cases hok : hb.uart_connection_ok
      · have := ih ⟨false, true, hb.last_ping_sent, now⟩
        simpa [hok, healthLogsAlternate] using this
      · have := ih ⟨false, true, hb.last_ping_sent, now⟩
        simpa [hok, healthLogsAlternate] using this

/-- C4: the link-health flag is edge-triggered in both directions.
First conjunct: on a probe timeout while awaiting a response with the
link still marked up, the flag drops with exactly one logged down
transition and `waiting_for_pong` is cleared.  Second: while the
condition persists (flag already down), a further timeout logs nothing
and still clears `waiting_for_pong`.  Third: dispatching a probe
response sets the flag and logs the recovery exactly when the flag was
down (never when already up).  Fourth: over every event sequence from
the initial state, the logged down/recovery transitions strictly
alternate starting with a down — so neither transition is ever logged
twice for one sustained condition. -/
theorem C4_heartbeat_edge_triggered (hb : HeartbeatState) (now : Nat) (events : List HBEvent) :
    (hb.waiting_for_pong = true → now - hb.last_ping_sent ≥ STM32_PING_TIMEOUT_MS →
      hb.uart_connection_ok = true →
      hb_check_timeout hb now =
        (⟨false, false, hb.last_ping_sent, hb.last_pong_received⟩, [HBLog.down])) ∧
      (hb.waiting_for_pong = true → now - hb.last_ping_sent ≥ STM32_PING_TIMEOUT_MS →
        hb.uart_connection_ok = false →
        hb_check_timeout hb now =
          (⟨false, false, hb.last_ping_sent, hb.last_pong_received⟩, [])) ∧
      (hb_step hb (HBEvent.pongLine now) =
        (⟨false, true, hb.last_ping_sent, now⟩,
          if hb.uart_connection_ok then [] else [HBLog.recovery])) ∧
      healthLogsAlternate hb_init.uart_connection_ok (hb_run hb_init events).2 = true := by
  refine ⟨?_, ?_, hb_step_pong hb now, hb_run_alternation events hb_init⟩
  · intro hw ht hok
    simp [hb_check_timeout, hw, ht, hok]
  · intro hw ht hok
    simp [hb_check_timeout, hw, ht, hok]

/-- C4 witness: a concrete run — probe sent at tick 0, timeout check at
tick 1000 (logs the one down transition and clears the waiting flag),
probe resent and timed out again at 3000 (no second down log), response
at 4000 (one recovery log) — together with a concrete first-timeout
transition discharging the hypotheses of the first conjunct. -/
theorem C4_heartbeat_edge_triggered_witness :
    hb_check_timeout ⟨true, true, 0, 0⟩ 1000 = (⟨false, false, 0, 0⟩, [HBLog.down]) ∧
      (hb_run hb_init
        [HBEvent.pingSent 0, HBEvent.timeoutCheck 1000, HBEvent.pingSent 2000,
          HBEvent.timeoutCheck 3000, HBEvent.pongLine 4000]).2 =
        [HBLog.down, HBLog.recovery] :=
  ⟨(C4_heartbeat_edge_triggered ⟨true, true, 0, 0⟩ 1000 []).1 rfl (by decide) rfl, by decide⟩

/-! ## Watchdog monitor

From `watchdog.c`: the entry table (`watchdog_entry_t`, `watchdog_tasks`,
`num_registered`), registration (`watchdog_register`, lines 288-327),
feeding (`watchdog_feed`, lines 332-343) and the periodic check loop of
`watchdog_task` (lines 390-444). -/

/-- One watchdog table entry (`watchdog_entry_t` of `watchdog.c`): the
stored task name (truncated by `strncpy` to 15 characters plus NUL), the
timeout, the tick of the last feed, and whether the slot is in use. -/
structure watchdog_entry_t where
  task_name : List Char
  timeout_ms : Nat
  last_feed_tick : Nat
  registered : Bool
deriving DecidableEq, Repr

/-- The watchdog module state: the fixed `watchdog_tasks` array (a list
of length `WATCHDOG_MAX_TASKS`) and the `num_registered` counter. -/
structure WatchdogState where
  watchdog_tasks : List watchdog_entry_t
  num_registered : Nat
deriving DecidableEq, Repr

/-- The per-entry body of the check loop in `watchdog_task` (lines
406-441): an unregistered slot is skipped; a registered entry whose
elapsed time since the last feed exceeds its timeout raises an alert and
has its `last_feed_tick` reset to `now` to suppress alert spam; otherwise
nothing happens.  Returns the updated entry and whether an alert was
emitted. -/
def watchdog_check_entry (e : watchdog_entry_t) (now : Nat) : watchdog_entry_t × Bool :=
  if e.registered = false then (e, false)
  else if now - e.last_feed_tick > e.timeout_ms then
    ({ e with last_feed_tick := now }, true)
  else (e, false)

/-- Scenario of C5/scenario D: an entry registered with timeout `T` whose
owning task last fed at tick 0 and then stopped feeding; the watchdog
task checks it at ticks `P`, `2P`, ..., `nP` (one check per period `P`).
Returns the entry state after `n` checks and the list of per-check alert
flags. -/
def wd_scenario (T P : Nat) : Nat → watchdog_entry_t × List Bool
  | 0 => (⟨[], T, 0, true⟩, [])
  | n + 1 =>
    let r := wd_scenario T P n
    let c := watchdog_check_entry r.1 ((n + 1) * P)
    (c.1, r.2 ++ [c.2])

example : (wd_scenario 5000 1000 7).2 =
    [false, false, false, false, false, true, false] := by decide

theorem wd_scenario_spec (T P : Nat) (hP : 0 < P) : ∀ n,
    wd_scenario T P n =
      (⟨[], T, P * ((T / P + 1) * (n / (T / P + 1))), true⟩,
        (List.range n).map fun k => decide ((T / P + 1) ∣ (k + 1))) := by
  have hdiv_iff : ∀ x, T / P < x ↔ T < x * P := fun x => Nat.div_lt_iff_lt_mul hP
  intro n
  induction n with
  | zero => simp [wd_scenario]
  | succ n ih =>
    have hs : 0 < T / P + 1 := Nat.succ_pos _
    have hdm : n = (T / P + 1) * (n / (T / P + 1)) + n % (T / P + 1) :=
      (Nat.div_add_mod n (T / P + 1)).symm
    have hrlt : n % (T / P + 1) < T / P + 1 := Nat.mod_lt n hs
    set s := T / P + 1 with hs_def
    set q := n / s with hq_def
    set r := n % s with hr_def
    have helapsed : (n + 1) * P - P * (s * q) = P * (r + 1) := by
      have h1 : (n + 1) * P = P * (s * q) + P * (r + 1) := by
        calc (n + 1) * P = (s * q + r + 1) * P := by rw [← hdm]
          _ = P * (s * q) + P * (r + 1) := by ring
      omega
    have hcond : (P * (r + 1) > T) ↔ (r + 1 = s) := by
      rw [hs_def]
      constructor
      · intro h
        have hd : T / P < r + 1 := (hdiv_iff (r + 1)).mpr (by rw [mul_comm]; exact h)
        have : r < s := hrlt
        rw [hs_def] at this
        omega
      · intro h
        have hd : T / P < r + 1 := by omega
        have := (hdiv_iff (r + 1)).mp hd
        rw [mul_comm] at this
        exact this
    have hdvd : (r + 1 = s) ↔ s ∣ (n + 1) := by
      constructor
      · intro h
        refine ⟨q + 1, ?_⟩
        have : n + 1 = s * q + (r + 1) := by omega
        rw [this, h]; ring
      · rintro ⟨m, hm⟩
        by_contra hne
        have hlt : r + 1 < s := by omega
        have hmq : s * m = s * q + r + 1 := by omega
        have h1 : s * q < s * m := by omega
        have h2 : s * m < s * (q + 1) := by
          have hz : s * (q + 1) = s * q + s := by ring
          omega
        have hq1 : q < m := Nat.lt_of_mul_lt_mul_left h1
        have hq2 : m < q + 1 := Nat.lt_of_mul_lt_mul_left h2
        omega
    have hcheck := helapsed
    simp only [wd_scenario, ih]
    by_cases halert : s ∣ (n + 1)
    · have hr1 : r + 1 = s := hdvd.mpr halert
      have hc : (n + 1) * P - P * (s * q) > T := by
        rw [helapsed]; exact hcond.mpr hr1
      have hn1 : n + 1 = s * (q + 1) := by
        have : n + 1 = s * q + (r + 1) := by omega
        rw [this, hr1]; ring
      have hdivq : (n + 1) / s = q + 1 := by
        rw [hn1, Nat.mul_div_cancel_left _ hs]
      rw [watchdog_check_entry]
      simp only [if_neg (by simp : ¬(true = false))]
      rw [if_pos hc, List.range_succ, List.map_append]
      refine congrArg₂ Prod.mk ?_ ?_
      · have : (n + 1) * P = P * (s * ((n + 1) / s)) := by
          rw [hdivq, hn1]; ring
        rw [← this]
      · simp [halert]
    · have hr1 : ¬(r + 1 = s) := fun h => halert (hdvd.mp h)
      have hc : ¬((n + 1) * P - P * (s * q) > T) := by
        rw [helapsed]
        intro h
        exact hr1 (hcond.mp h)
      have hlt : r + 1 < s := by omega
      have hdivq : (n + 1) / s = q := by
        have hn1 : n + 1 = s * q + (r + 1) := by omega
        rw [hn1, Nat.mul_add_div hs, Nat.div_eq_of_lt hlt, Nat.add_zero]
      rw [watchdog_check_entry]
      simp only [if_neg (by simp : ¬(true = false))]
      rw [if_neg hc, List.range_succ, List.map_append]
      refine congrArg₂ Prod.mk ?_ ?_
      · rw [hdivq]
      · simp [halert]

/-- C5 (counterexample): the claim states that once the configured
timeout has elapsed, exactly one alert is logged **per check period,
every check period**, until feeding resumes.  With the firmware's values
(timeout 5000 ms, check period 1000 ms) and feeding stopped at tick 0,
the checks at 1000..7000 ms produce an alert only at 6000 ms: the check
at 7000 ms — a full check period during which the task was still silent —
logs nothing, because the alert handler reset the entry's feed timestamp. -/
theorem C5_alert_not_every_check_period :
    (wd_scenario 5000 WATCHDOG_CHECK_PERIOD_MS 7).2 =
      [false, false, false, false, false, true, false] := by decide

/-- C5 (amended): once a registered task stops feeding (last feed at tick
0, checks every `P` ticks), the watchdog logs an alert exactly at every
`(T / P + 1)`-th check — the first alert after the configured timeout has
elapsed (within one check period), and then **one alert per elapsed
timeout interval**, not one per check period, until feeding resumes:
after each alert the entry's feed timestamp is reset to the alert time,
so the next alert waits for a further full timeout. -/
theorem C5_watchdog_alert_cadence (T P n : Nat) (hP : 0 < P) :
    (wd_scenario T P n).2 =
      (List.range n).map fun k => decide ((T / P + 1) ∣ (k + 1)) :=
  congrArg Prod.snd (wd_scenario_spec T P hP n)

/-- C5 witness: the amended cadence at the firmware's configuration —
timeout 5000 ms, check period 1000 ms, seven checks — alerts exactly at
the 6th check. -/
theorem C5_watchdog_alert_cadence_witness :
    (wd_scenario 5000 1000 7).2 =
      ((List.range 7).map fun k => decide ((5000 / 1000 + 1) ∣ (k + 1))) ∧
      ((List.range 7).map fun k => decide ((5000 / 1000 + 1) ∣ (k + 1))) =
        [false, false, false, false, false, true, false] :=
  ⟨C5_watchdog_alert_cadence 5000 1000 7 (by norm_num), by decide⟩

/-- Shallow embedding of `watchdog_register` (`watchdog.c` lines
288-327): fail with the sentinel when `num_registered` has reached the
table capacity; otherwise take the first slot whose `registered` flag is
clear (the search loop; `findIdx` returns the list length when no slot
is free, matching the loop running to `WATCHDOG_MAX_TASKS`), initialize
it with the name truncated by `strncpy` to 15 characters, the timeout
and a fresh feed timestamp, and return its index. -/
def watchdog_register (st : WatchdogState) (task_name : List Char) (timeout_ms now : Nat) :
    WatchdogState × Nat :=
  if st.num_registered ≥ WATCHDOG_MAX_TASKS then (st, WATCHDOG_INVALID_ID)
  else
    let id := st.watchdog_tasks.findIdx fun e => !e.registered
    if id ≥ WATCHDOG_MAX_TASKS then (st, WATCHDOG_INVALID_ID)
    else
      ({ watchdog_tasks :=
           st.watchdog_tasks.set id ⟨task_name.take 15, timeout_ms, now, true⟩,
         num_registered := st.num_registered + 1 }, id)

/-- Shallow embedding of `watchdog_feed` (`watchdog.c` lines 332-343):
an out-of-range id or an unregistered slot returns without touching
anything; a valid registered id has its `last_feed_tick` set to the
current tick. -/
def watchdog_feed (st : WatchdogState) (id : Nat) (now : Nat) : WatchdogState :=
  if id ≥ WATCHDOG_MAX_TASKS then st
  else
    match st.watchdog_tasks[id]? with
    | none => st
    | some e =>
      if e.registered = false then st
      else
        { st with watchdog_tasks :=
            st.watchdog_tasks.set id { e with last_feed_tick := now } }

/-- Structural invariant of the watchdog module, established by
`watchdog_init` (all slots cleared, `num_registered = 0`) and preserved
by the operations: the table has exactly `WATCHDOG_MAX_TASKS` slots and
`num_registered` counts the occupied ones. -/
def WdInv (st : WatchdogState) : Prop :=
  st.watchdog_tasks.length = WATCHDOG_MAX_TASKS ∧
    st.num_registered = (st.watchdog_tasks.filter fun e => e.registered).length

/-- A sample reachable watchdog state used to witness the contract: two
occupied slots around a free one. -/
def wdSampleState : WatchdogState :=
  ⟨[⟨['A'], 5000, 10, true⟩, ⟨[], 0, 0, false⟩, ⟨['B'], 3000, 20, true⟩], 2⟩

example : WdInv wdSampleState := by constructor <;> decide

example : (watchdog_register wdSampleState ['C'] 4000 42).2 = 1 := by decide

example : watchdog_feed wdSampleState 7 99 = wdSampleState := by decide

/-- C8: under the module invariant, (1) `watchdog_register` returns the
sentinel invalid id exactly when every slot of the 3-entry table is
occupied; (2) otherwise it returns the index of a slot that was free,
now initialized with the (15-character-truncated) name, the timeout and
a fresh feed timestamp; (3) `watchdog_feed` on a valid registered id
rewrites only that entry, resetting its feed timestamp to the current
tick (elapsed time zero) while keeping its name and timeout, and leaves
every other slot untouched; (4) `watchdog_feed` on an out-of-range or
unregistered id is a complete no-op (and, being total, never panics). -/
theorem C8_watchdog_register_feed (st : WatchdogState) (name : List Char)
    (timeout_ms now id : Nat) (hInv : WdInv st) :
    ((watchdog_register st name timeout_ms now).2 = WATCHDOG_INVALID_ID ↔
        ∀ e ∈ st.watchdog_tasks, e.registered = true) ∧
      ((watchdog_register st name timeout_ms now).2 ≠ WATCHDOG_INVALID_ID →
        (watchdog_register st name timeout_ms now).2 < WATCHDOG_MAX_TASKS ∧
          (st.watchdog_tasks[(watchdog_register st name timeout_ms now).2]?.map
              (fun e => e.registered) = some false) ∧
          (watchdog_register st name timeout_ms
              now).1.watchdog_tasks[(watchdog_register st name timeout_ms now).2]? =
            some ⟨name.take 15, timeout_ms, now, true⟩) ∧
      (∀ e, st.watchdog_tasks[id]? = some e → e.registered = true →
        (watchdog_feed st id now).watchdog_tasks =
            st.watchdog_tasks.set id ⟨e.task_name, e.timeout_ms, now, e.registered⟩ ∧
          (watchdog_feed st id now).watchdog_tasks[id]? =
            some ⟨e.task_name, e.timeout_ms, now, e.registered⟩ ∧
          ∀ j, j ≠ id →
            (watchdog_feed st id now).watchdog_tasks[j]? = st.watchdog_tasks[j]?) ∧
      ((WATCHDOG_MAX_TASKS ≤ id ∨
          ∀ e, st.watchdog_tasks[id]? = some e → e.registered = false) →
        watchdog_feed st id now = st) := by
  obtain ⟨hlen, hcount⟩ := hInv
  refine ⟨?_, ?_, ?_, ?_⟩
  · -- (1) sentinel iff table exhausted
    constructor
    · intro hres
      by_contra hnotall
      push_neg at hnotall
      obtain ⟨e, he, hereg⟩ := hnotall
      have hfree : ∃ x ∈ st.watchdog_tasks, (!x.registered) = true := by
        refine ⟨e, he, ?_⟩
        simp [Bool.eq_false_iff.mpr hereg]
      have hidx := List.findIdx_lt_length_of_exists hfree
      rw [hlen] at hidx
      have hnum : st.num_registered < WATCHDOG_MAX_TASKS := by
        have hfilter_lt :
            (st.watchdog_tasks.filter fun x => x.registered).length <
              st.watchdog_tasks.length := by
          by_contra hge
          push_neg at hge
          have heq : (st.watchdog_tasks.filter fun x => x.registered) = st.watchdog_tasks :=
            (List.filter_sublist st.watchdog_tasks).eq_of_length
              (Nat.le_antisymm (List.length_filter_le _ _) hge)
          have := List.filter_eq_self.mp heq e he
          simp [hereg] at this
        omega
      rw [watchdog_register, if_neg (by omega)] at hres
      simp only at hres
      rw [if_neg (by omega)] at hres
      simp only [WATCHDOG_INVALID_ID] at hres
      simp only [WATCHDOG_MAX_TASKS] at hidx
      omega
    · intro hall
      have hfull :
          (st.watchdog_tasks.filter fun x => x.registered).length = WATCHDOG_MAX_TASKS := by
        rw [List.filter_eq_self.mpr (by intro a ha; simpa using hall a ha), hlen]
      rw [watchdog_register,
        if_pos (show st.num_registered ≥ WATCHDOG_MAX_TASKS by omega)]
  · -- (2) success returns an initialized free slot
    intro hres
    rw [watchdog_register] at hres ⊢
    by_cases hnum : st.num_registered ≥ WATCHDOG_MAX_TASKS
    · rw [if_pos hnum] at hres; simp at hres
    · rw [if_neg hnum] at hres ⊢
      simp only at hres ⊢
      by_cases hidx : st.watchdog_tasks.findIdx (fun e => !e.registered) ≥ WATCHDOG_MAX_TASKS
      · rw [if_pos hidx] at hres; simp at hres
      · rw [if_neg hidx] at hres ⊢
        push_neg at hidx
        have hidx' : st.watchdog_tasks.findIdx (fun e => !e.registered) <
            st.watchdog_tasks.length := by omega
        refine ⟨hidx, ?_, ?_⟩
        · have hp : (fun e => !e.registered)
              st.watchdog_tasks[st.watchdog_tasks.findIdx fun e => !e.registered] = true :=
            @List.findIdx_getElem _ _ _ hidx'
          rw [List.getElem?_eq_getElem hidx']
          simp only [Option.map_some']
          simp only [Bool.not_eq_true'] at hp
          rw [hp]
        · exact List.getElem?_set_eq_of_lt _ (by simpa using hidx')
  · -- (3) feeding a valid registered id
    intro e he hereg
    have hid : id < st.watchdog_tasks.length := (List.getElem?_eq_some.mp he).1
    have hfeed : watchdog_feed st id now =
        { st with watchdog_tasks :=
            st.watchdog_tasks.set id ⟨e.task_name, e.timeout_ms, now, e.registered⟩ } := by
      rw [watchdog_feed, if_neg (by rw [hlen] at hid; omega), he]
      simp [hereg]
    refine ⟨by rw [hfeed], ?_, ?_⟩
    · rw [hfeed]
      exact List.getElem?_set_eq_of_lt _ (by simpa using hid)
    · intro j hj
      rw [hfeed]
      exact List.getElem?_set_ne (fun h => hj h.symm)
  · -- (4) invalid or unregistered id: no-op
    rintro (hge | hunreg)
    · rw [watchdog_feed, if_pos hge]
    · rw [watchdog_feed]
      by_cases hge : id ≥ WATCHDOG_MAX_TASKS
      · rw [if_pos hge]
      · rw [if_neg hge]
        cases hsome : st.watchdog_tasks[id]? with
        | none => rfl
        | some e => simp [hunreg e hsome]

/-- C8 witness: on the sample state (slots 0 and 2 occupied, slot 1
free), registering takes slot 1 and initializes it; feeding id 0 resets
only entry 0's timestamp; feeding the out-of-range id 7 and feeding the
free slot 1 are both no-ops. -/
theorem C8_watchdog_register_feed_witness :
    ((watchdog_register wdSampleState ['C'] 4000 42).2 ≠ WATCHDOG_INVALID_ID →
        (watchdog_register wdSampleState ['C'] 4000
            42).1.watchdog_tasks[(watchdog_register wdSampleState ['C'] 4000 42).2]? =
          some ⟨['C'], 4000, 42, true⟩) ∧
      (watchdog_feed wdSampleState 0 99).watchdog_tasks[0]? = some ⟨['A'], 5000, 99, true⟩ ∧
      (watchdog_feed wdSampleState 0 99).watchdog_tasks[2]? =
        wdSampleState.watchdog_tasks[2]? ∧
      watchdog_feed wdSampleState 7 99 = wdSampleState := by
  have h := C8_watchdog_register_feed wdSampleState ['C'] 4000 42 0 ⟨by decide, by decide⟩
  have hf := C8_watchdog_register_feed wdSampleState ['C'] 4000 99 0 ⟨by decide, by decide⟩
  have h7 := C8_watchdog_register_feed wdSampleState ['C'] 4000 99 7 ⟨by decide, by decide⟩
  refine ⟨fun hne => ?_, ?_, ?_, ?_⟩
  · exact (h.2.1 hne).2.2
  · exact ((hf.2.2.1 ⟨['A'], 5000, 10, true⟩ (by decide) (by decide)).2.1)
  · exact ((hf.2.2.1 ⟨['A'], 5000, 10, true⟩ (by decide) (by decide)).2.2 2 (by decide))
  · exact h7.2.2.2 (Or.inl (by decide))

/-! ## Stream-buffer high-water diagnostic

From `esp8266_comm_task_handler`, lines 350-359: after each successful
one-byte read, `xStreamBufferBytesAvailable` is inspected and a one-shot
warning is printed when more than 64 of the 128 buffered bytes are still
pending, guarded by the function-local static `buffer_warning_shown`. -/

/-- One check of the high-water diagnostic: given the current value of
the static `buffer_warning_shown` flag and the bytes still available
after the read, returns the updated flag and whether the warning line was
printed. -/
def buffer_warning_step (shown : Bool) (bytes_available : Nat) : Bool × Bool :=
  if bytes_available > 64 then
    if shown = false then (true, true) else (shown, false)
  else (shown, false)

/-- Iterating the high-water check over the sequence of post-read
occupancy observations of one execution, collecting which reads printed
the warning. -/
def buffer_warning_run (shown : Bool) : List Nat → Bool × List Bool
  | [] => (shown, [])
  | o :: os =>
    let s := buffer_warning_step shown o
    let r := buffer_warning_run s.1 os
    (r.1, s.2 :: r.2)

/-- Modelled from the spec (§4.1): the one-shot high-water diagnostic
pattern — the warning appears exactly at the first read that leaves more
than half the 128-byte channel capacity pending, and never anywhere
else. -/
def one_shot_highwater : List Nat → List Bool
  | [] => []
  | o :: os =>
    if o > UART_STREAM_BUFFER_SIZE / 2 then true :: os.map fun _ => false
    else false :: one_shot_highwater os

theorem buffer_warning_run_shown (occs : List Nat) :
    (buffer_warning_run true occs).2 = occs.map fun _ => false := by
  induction occs with
  | nil => rfl
  | cons o os ih =>
    by_cases h : o > 64 <;> simp [buffer_warning_run, buffer_warning_step, h, ih]

theorem one_shot_count (occs : List Nat) : (one_shot_highwater occs).count true ≤ 1 := by
  induction occs with
  | nil => simp [one_shot_highwater]
  | cons o os ih =>
    by_cases h : o > UART_STREAM_BUFFER_SIZE / 2
    · simp only [one_shot_highwater, if_pos h]
      rw [List.count_cons]
      simp [List.count_replicate]
    · simp only [one_shot_highwater, if_neg h]
      rw [List.count_cons]
      simp [ih]

/-- C9: the high-water diagnostic is one-shot.  Over any execution
(modelled by the sequence of post-read occupancy observations, the flag
starting clear), the sequence of warning emissions equals the one-shot
pattern — the warning appears exactly at the first read after which more
than 64 of the 128 bytes are still pending, never before such a read and
never at any later read — and in total the warning is printed at most
once; it only ever produces a log line, never an error path. -/
theorem C9_stream_warning_one_shot (occs : List Nat) :
    (buffer_warning_run false occs).2 = one_shot_highwater occs ∧
      (buffer_warning_run false occs).2.count true ≤ 1 := by
  have hmain : ∀ os : List Nat, (buffer_warning_run false os).2 = one_shot_highwater os := by
    intro os
    induction os with
    | nil => rfl
    | cons o os ih =>
      by_cases h : o > 64
      · have h' : o > UART_STREAM_BUFFER_SIZE / 2 := by
          simpa [UART_STREAM_BUFFER_SIZE] using h
        simp [buffer_warning_run, buffer_warning_step, one_shot_highwater, h, h',
          buffer_warning_run_shown]
      · have h' : ¬(o > UART_STREAM_BUFFER_SIZE / 2) := by
          simpa [UART_STREAM_BUFFER_SIZE] using h
        simp [buffer_warning_run, buffer_warning_step, one_shot_highwater, h, h', ih]
  exact ⟨hmain occs, by rw [hmain occs]; exact one_shot_count occs⟩

/-! ## Print task and `print_message`

From `print_task.c`: `print_message` (lines 63-86) copies the message
into a 256-byte local buffer with `strncpy(buffer, message, 255)`, forces
`buffer[255] = '\0'`, and enqueues the buffer by value with a 100 ms
timeout.  The queue is modelled as the list of enqueued 256-byte items
(bounded by `PRINT_QUEUE_DEPTH`); a `none` queue models `print_queue ==
NULL` (task not initialized) and a `none` message models a NULL
pointer. -/

/-- The 256-byte buffer built by `print_message`: the first
`min(length, 255)` characters of the message, right-padded with NUL by
`strncpy` and the forced terminator at index 255. -/
def print_buffer (message : List Char) : List Char :=
  message.take (PRINT_MESSAGE_MAX_SIZE - 1) ++
    List.replicate
      (PRINT_MESSAGE_MAX_SIZE - min message.length (PRINT_MESSAGE_MAX_SIZE - 1)) NUL

/-- Shallow embedding of `print_message` (`print_task.c` lines 63-86):
NULL message or uninitialized queue fail without touching the queue; a
full queue makes the 100 ms `xQueueSend` time out (`pdFAIL`, message
dropped); otherwise the truncated buffer is enqueued and `pdPASS`
returned. -/
def print_message (print_queue : Option (List (List Char))) (message : Option (List Char)) :
    Option (List (List Char)) × Bool :=
  match message with
  | none => (print_queue, false)
  | some msg =>
    match print_queue with
    | none => (none, false)
    | some q =>
      if q.length ≥ PRINT_QUEUE_DEPTH then (some q, false)
      else (some (q ++ [print_buffer msg]), true)

example : (print_buffer "hi".toList).take 3 = ['h', 'i', NUL] := by decide

/-- C10: with the queue initialized and not full, `print_message` on a
non-NULL message enqueues exactly one item and reports success (`pdPASS`)
with no error indication even when the message is truncated; the enqueued
item carries exactly the first `min(length, 255)` characters of the
message, immediately followed by a NUL terminator, in a 256-byte slot; a
NULL message leaves any queue untouched and fails, and an uninitialized
queue fails as well. -/
theorem C10_print_message_truncation (q : List (List Char)) (msg : List Char)
    (hq : q.length < PRINT_QUEUE_DEPTH) :
    print_message (some q) (some msg) = (some (q ++ [print_buffer msg]), true) ∧
      (print_buffer msg).take (min msg.length (PRINT_MESSAGE_MAX_SIZE - 1)) =
        msg.take (PRINT_MESSAGE_MAX_SIZE - 1) ∧
      (print_buffer msg).getD (min msg.length (PRINT_MESSAGE_MAX_SIZE - 1)) 'x' = NUL ∧
      (print_buffer msg).length = PRINT_MESSAGE_MAX_SIZE ∧
      (∀ queue, print_message queue none = (queue, false)) ∧
      print_message none (some msg) = (none, false) := by
  refine ⟨?_, ?_, ?_, ?_, fun queue => rfl, rfl⟩
  · simp only [print_message]
    rw [if_neg (by omega)]
  · rw [print_buffer, List.take_append_of_le_length (by simp [List.length_take])]
    apply List.take_of_length_le
    simp [List.length_take]
  · have hlen_take : (msg.take (PRINT_MESSAGE_MAX_SIZE - 1)).length =
        min (PRINT_MESSAGE_MAX_SIZE - 1) msg.length := List.length_take _ _
    rw [print_buffer, List.getD_append_right _ _ _ _ (by rw [hlen_take]; omega)]
    rw [hlen_take]
    have hidx : min msg.length (PRINT_MESSAGE_MAX_SIZE - 1) -
        min (PRINT_MESSAGE_MAX_SIZE - 1) msg.length = 0 := by omega
    rw [hidx]
    have hrep : 0 < PRINT_MESSAGE_MAX_SIZE - min msg.length (PRINT_MESSAGE_MAX_SIZE - 1) := by
      simp only [PRINT_MESSAGE_MAX_SIZE]
      omega
    cases hrep' : PRINT_MESSAGE_MAX_SIZE - min msg.length (PRINT_MESSAGE_MAX_SIZE - 1) with
    | zero => omega
    | succ k => rfl
  · simp only [print_buffer, List.length_append, List.length_take, List.length_replicate,
      PRINT_MESSAGE_MAX_SIZE]
    omega

/-- C10 witness: a two-character message on an empty queue is enqueued
as its 256-byte buffer with success, and the NULL-queue call fails. -/
theorem C10_print_message_truncation_witness :
    print_message (some []) (some "hi".toList) =
        (some ([] ++ [print_buffer "hi".toList]), true) ∧
      print_message none (some "hi".toList) = (none, false) :=
  ⟨(C10_print_message_truncation [] "hi".toList (by decide)).1,
    (C10_print_message_truncation [] "hi".toList (by decide)).2.2.2.2.2⟩

/-! ## Blocking call sites and their timeout bounds

The suspending/blocking primitive calls of the core tasks
(`esp8266_comm_task.c`, `print_task.c`, `watchdog.c`), each with the
timeout argument passed at that call site (ticks = ms).  The STM32 HAL
treats `HAL_MAX_DELAY` (`0xFFFFFFFF`) as an unbounded wait. -/

/-- One blocking call site of the core: a description (function, primitive
and source line), whether it is one of the print task's debug-UART3
transmit calls, and the timeout argument passed. -/
structure BlockingCallSite where
  site_desc : String
  uart3_debug_tx : Bool
  timeout_ticks : Nat
deriving DecidableEq, Repr

/-- Every suspending or blocking call in the core tasks, with the timeout
value each passes (from the source): the communication task's transmits,
retry delays and stream-buffer read, the log-queue send/receive, the
watchdog period wait, and the print task's two UART3 transmits. -/
def blocking_call_sites : List BlockingCallSite :=
  [⟨"esp8266_comm_task_handler: HAL_UART_Transmit startup banner, line 274", false, 1000⟩,
   ⟨"esp8266_comm_task_handler: HAL_UART_Transmit STM32_PING, line 302", false, 100⟩,
   ⟨"esp8266_comm_task_handler: vTaskDelay retry backoff, line 304", false, 10⟩,
   ⟨"process_led_command: HAL_UART_Transmit PONG, line 104", false, 100⟩,
   ⟨"process_led_command: vTaskDelay retry backoff, line 106", false, 10⟩,
   ⟨"process_led_command: HAL_UART_Transmit LED ack, line 172", false, 100⟩,
   ⟨"process_led_command: vTaskDelay retry backoff, line 174", false, 10⟩,
   ⟨"esp8266_comm_task_handler: xStreamBufferReceive, line 334", false, 100⟩,
   ⟨"esp8266_comm_task_handler: HAL_UART_Transmit overflow error, line 380", false, 100⟩,
   ⟨"print_message: xQueueSend, line 83", false, 100⟩,
   ⟨"print_char: xQueueSend, line 107", false, 100⟩,
   ⟨"print_task_handler: xQueueReceive, line 142", false, 2000⟩,
   ⟨"print_task_handler: HAL_UART_Transmit startup banner, line 137", true, HAL_MAX_DELAY⟩,
   ⟨"print_task_handler: HAL_UART_Transmit message, line 144-147", true, HAL_MAX_DELAY⟩,
   ⟨"watchdog_task: vTaskDelayUntil check period, line 400", false, 1000⟩]

/-- A call site's timeout is finite when it is not the HAL's unbounded
sentinel. -/
def isFiniteTimeout (s : BlockingCallSite) : Bool :=
  s.timeout_ticks ≠ HAL_MAX_DELAY

/-- C6 (counterexample): the claim states that every suspending or
blocking operation in the core — physical transmit calls included —
passes a finite timeout bound.  On the code this fails: not every
blocking call site passes a finite timeout; exactly two sites pass the
HAL's unbounded `HAL_MAX_DELAY` sentinel, and every infinite-timeout site
is one of the print task's UART3 debug transmit calls (`print_task.c`
lines 137 and 144-147). -/
theorem C6_print_transmit_unbounded :
    (blocking_call_sites.all fun s => isFiniteTimeout s) = false ∧
      (blocking_call_sites.filter fun s => !isFiniteTimeout s).length = 2 ∧
      (∀ s ∈ blocking_call_sites, isFiniteTimeout s = false → s.uart3_debug_tx = true) := by
  refine ⟨by decide, by decide, by decide⟩

/-- C6 (amended): every suspending or blocking call site of the core —
the stream-buffer read, log-queue send and receive, retry delays,
watchdog period wait, and the communication task's transmit calls —
passes a finite timeout bound, **except** the logging task's two UART3
debug transmit calls, which wait unboundedly with `HAL_MAX_DELAY`. -/
theorem C6_blocking_sites_finite_except_debug_tx :
    (blocking_call_sites.all fun s => s.uart3_debug_tx || isFiniteTimeout s) = true := by
  decide

end Stm32Wifi
